import Mathlib

/-!
Shallow embedding of the checkpoint/resume, retry, URL-variant and detector
logic of the pixel-detector repository, together with proofs settling the
frozen claims about its specification.

Source files embedded:
- src/pixel_detector/detectors/base.py (BasePixelDetector)
- src/pixel_detector/utils/retry.py (exponential_backoff_retry)
- src/pixel_detector/production_batch_scanner.py (ProductionBatchScanner)
- src/pixel_detector/batch_processor.py (BatchProcessor)
- production_scanner.py (ProductionScanner)
-/

namespace PixelDetector

/-! ## Detector model (detectors/base.py)

A `BasePixelDetector` instance owns seven accumulators (base.py lines
12-19).  `network_requests`, `script_tags`, `global_variables`,
`dom_elements` and `meta_tags` are Python lists; `cookies_found` and
`pixel_ids` are Python sets, which we model as `Finset String`
(unordered, deduplicated — Python sets do not expose insertion order).
The concrete vendor detectors (meta.py, google.py, ...) override only the
signature data and the accumulation hooks; `is_detected` and
`build_detection` are inherited from the base class unchanged, so the
base-class logic below covers every detector.
-/

/-- Accumulator state of one `BasePixelDetector` during one scan
(base.py `__init__`, lines 12-19). -/
structure DetectorState where
  network_requests : List String
  cookies_found : Finset String
  script_tags : List String
  global_variables : List String
  dom_elements : List String
  meta_tags : List String
  pixel_ids : Finset String
deriving DecidableEq

/-- The evidence record placed in a detection
(models/pixel_detection.py `PixelEvidence`, lines 25-31).  The source
builds `cookies_set` as `list(self.cookies_found)`, a list of the set's
elements in unspecified order, so we keep it as a `Finset`. -/
structure PixelEvidence where
  network_requests : List String
  script_tags : List String
  cookies_set : Finset String
  global_variables : List String
  dom_elements : List String
  meta_tags : List String
deriving DecidableEq

/-- A positive detection (models/pixel_detection.py `PixelDetection`,
lines 34-40).  `pixel_type` and `risk_level` stand for the enum values;
the derived `description` string (pure log formatting, base.py
`get_description`) is omitted as it plays no role in any claim. -/
structure PixelDetection where
  pixel_type : String
  evidence : PixelEvidence
  risk_level : String
  hipaa_concern : Bool
  pixel_id : Option String
deriving DecidableEq

/-- base.py `is_detected` (lines 165-173): true when any of the five
accumulators `network_requests`, `script_tags`, `cookies_found`,
`global_variables`, `dom_elements` is non-empty.  `meta_tags` and
`pixel_ids` are not consulted. -/
def is_detected (st : DetectorState) : Bool :=
  !st.network_requests.isEmpty || !st.script_tags.isEmpty ||
    st.cookies_found.card != 0 || !st.global_variables.isEmpty ||
    !st.dom_elements.isEmpty

/-- base.py `build_detection` (lines 140-163).  When `is_detected` is
false the method returns `None`; otherwise it assembles the evidence and
takes `pixel_id = self.pixel_ids.pop() if self.pixel_ids else None`.
`set.pop` removes an element of the set chosen by CPython's hash-table
internals; we abstract it as a parameter `popFn` so that every theorem
holds for whatever element it returns. -/
def build_detection (popFn : Finset String → Option String)
    (ptype risk : String) (hipaa : Bool) (st : DetectorState) :
    Option PixelDetection :=
  if is_detected st then
    some
      { pixel_type := ptype
        evidence :=
          { network_requests := st.network_requests
            script_tags := st.script_tags
            cookies_set := st.cookies_found
            global_variables := st.global_variables
            dom_elements := st.dom_elements
            meta_tags := st.meta_tags }
        risk_level := risk
        hipaa_concern := hipaa
        pixel_id := if st.pixel_ids = ∅ then none else popFn st.pixel_ids }
  else none

/-- Specification of any `set.pop`-like choice: on a non-empty set it
returns some member of the set. -/
def popLike (popFn : Finset String → Option String) : Prop :=
  ∀ s : Finset String, s ≠ ∅ → ∃ x ∈ s, popFn s = some x

/-- The accumulated `pixel_ids` set after a sequence of candidate
discoveries, in discovery order: each discovery executes
`self.pixel_ids.add(candidate)` (base.py lines 72-74 and 98-101). -/
def pixelIdsAfter (discoveries : List String) : Finset String :=
  discoveries.foldl (fun s x => insert x s) ∅

/-- One concrete member-choosing function satisfying `popLike`: the head
of the sorted element list. -/
def popSorted (s : Finset String) : Option String :=
  (s.sort (· ≤ ·)).head?

/-! ## Retry policy (utils/retry.py `exponential_backoff_retry`)

Line 69 computes `delay = min(initial_delay * (exponential_base **
attempt), max_delay)`; line 73 applies jitter as `delay = delay * (0.5 +
random.random())`, where `random.random()` returns a float in `[0, 1)`.
Python float arithmetic is modelled over `ℚ`. -/

/-- retry.py line 69: the un-jittered backoff delay for the 0-indexed
`attempt`. -/
def backoff_delay (initial_delay max_delay exponential_base : ℚ)
    (attempt : ℕ) : ℚ :=
  min (initial_delay * exponential_base ^ attempt) max_delay

/-- retry.py line 73: the jittered delay, where `r` models the value
returned by `random.random()` (so `0 ≤ r < 1`). -/
def jittered_delay (initial_delay max_delay exponential_base : ℚ)
    (attempt : ℕ) (r : ℚ) : ℚ :=
  backoff_delay initial_delay max_delay exponential_base attempt * (1/2 + r)

/-! ## URL variant generation

production_batch_scanner.py `ProductionBatchScanner.normalize_domain`
(lines 88-123) and production_scanner.py
`ProductionScanner.generate_url_variations` (lines 267-281).  String
processing is embedded over `List Char` so every step is a structural
recursion. -/

/-- Python `str.strip()` with no argument: drop leading and trailing
whitespace. -/
def stripChars (cs : List Char) : List Char :=
  ((cs.dropWhile Char.isWhitespace).reverse.dropWhile Char.isWhitespace).reverse

/-- Python `str.lower()` (ASCII-adequate for domain names). -/
def lowerChars (cs : List Char) : List Char :=
  cs.map Char.toLower

/-- Everything after the first occurrence of the three characters
`://`, or `none` when the separator does not occur; this is Python's
`domain.split("://", 1)[1]` guarded by `"://" in domain`
(production_batch_scanner.py lines 96-97). -/
def afterSchemeSep : List Char → Option (List Char)
  | [] => none
  | ':' :: '/' :: '/' :: rest => some rest
  | _ :: rest => afterSchemeSep rest

/-- Python `str.rstrip("/")` (production_batch_scanner.py line 100). -/
def rstripSlashes (cs : List Char) : List Char :=
  (cs.reverse.dropWhile (fun c => c = '/')).reverse

/-- Python `domain.startswith("www.")`
(production_batch_scanner.py line 106). -/
def startsWithWWW : List Char → Bool
  | 'w' :: 'w' :: 'w' :: '.' :: _ => true
  | _ => false

/-- The cleaned host computed by `normalize_domain` before building the
variant list: strip, lowercase, drop any scheme, drop trailing slashes
(production_batch_scanner.py lines 93-100). -/
def cleanedDomain (domain : String) : List Char :=
  let d := lowerChars (stripChars domain.toList)
  let d := (afterSchemeSep d).getD d
  rstripSlashes d

/-- production_batch_scanner.py `normalize_domain` (lines 88-123): the
ordered list of URL variants attempted for a raw input domain. -/
def normalize_domain (domain : String) : List String :=
  let d := cleanedDomain domain
  if startsWithWWW d then
    let base := d.drop 4
    [ String.mk ("https://".toList ++ d)
    , String.mk ("https://".toList ++ base)
    , String.mk ("http://".toList ++ d)
    , String.mk ("http://".toList ++ base) ]
  else
    [ String.mk ("https://".toList ++ d)
    , String.mk ("https://www.".toList ++ d)
    , String.mk ("http://".toList ++ d)
    , String.mk ("http://www.".toList ++ d) ]

/-- production_scanner.py `generate_url_variations` (lines 267-281):
called on an already-validated registrable domain. -/
def generate_url_variations (try_variations : Bool) (domain : String) :
    List String :=
  if !try_variations then
    ["https://" ++ domain]
  else
    [ "https://" ++ domain
    , "https://www." ++ domain
    , "http://" ++ domain
    , "http://www." ++ domain ]

/-! ## Batch orchestrator model

production_batch_scanner.py `ProductionBatchScanner` keeps
`completed_domains : set[str]` and `failed_domains : dict[str, int]`
(domain → carried-forward retry count, lines 55-56).  The observable
actions of one `process_domain` call are recorded as an event trace.
The scan itself (`scan_with_redirect`) is browser interaction; only its
outcome (`success : Bool`) matters to the ledger, so it enters the model
as a parameter of the step. -/

/-- Observable actions of the orchestrators, in program order. -/
inductive ScanEvent
  | scan (d : String)
  | writeResult (d : String)
  | ledgerUpdate (d : String)
  | saveCheckpoint
  | updateProgress
deriving DecidableEq

/-- The in-memory ledger of `ProductionBatchScanner` (lines 55-56); it is
also exactly the data serialized into its checkpoint (lines 140-145), so
a checkpoint round-trip preserves it. -/
structure PBSState where
  completed : Finset String
  failed : String → Option Nat

/-- `self.failed_domains.get(domain, 0)`
(production_batch_scanner.py line 328). -/
def retryCountPBS (st : PBSState) (d : String) : Nat :=
  (st.failed d).getD 0

/-- production_batch_scanner.py `process_domain` (lines 319-362) as a
ledger step.  A completed domain is skipped (line 323); a domain whose
carried-forward retry count has reached `max_retries` is skipped (lines
328-331); otherwise the domain is scanned, the result file is written
(`save_result`, line 339), the ledger is updated (lines 342-348: success
adds to `completed` and deletes from `failed`; failure sets
`failed[d] = retry_count + 1`), and then the checkpoint and progress
files are written (lines 357-358).  Returns the new ledger and the event
trace of the call. -/
def process_domain (max_retries : Nat) (st : PBSState) (d : String)
    (success : Bool) : PBSState × List ScanEvent :=
  if d ∈ st.completed then
    (st, [])
  else if max_retries ≤ retryCountPBS st d then
    (st, [])
  else
    ( if success then
        { completed := insert d st.completed
          failed := fun x => if x = d then none else st.failed x }
      else
        { completed := st.completed
          failed := fun x => if x = d then some (retryCountPBS st d + 1)
                             else st.failed x }
    , [ScanEvent.scan d, ScanEvent.writeResult d, ScanEvent.ledgerUpdate d,
       ScanEvent.saveCheckpoint, ScanEvent.updateProgress] )

/-- A sequence of `process_domain` calls (the tasks dispatched in `run`,
lines 410-415, executed in some order; a restart continues from the
checkpointed ledger, so one step list also models several runs spliced
together).  Each step carries the domain and the outcome of its scan. -/
def runSteps (max_retries : Nat) :
    PBSState → List (String × Bool) → PBSState × List ScanEvent
  | st, [] => (st, [])
  | st, (d, success) :: rest =>
      let p := process_domain max_retries st d success
      let r := runSteps max_retries p.1 rest
      (r.1, p.2 ++ r.2)

/-- Number of actual scans of domain `d` in an event trace. -/
def countScans (d : String) (tr : List ScanEvent) : Nat :=
  tr.count (ScanEvent.scan d)

/-- production_batch_scanner.py `run`, line 374: the domains dispatched
for scanning after loading the checkpoint
(`[d for d in all_domains if d not in self.completed_domains]`). -/
def domains_to_scan (all_domains : List String) (completed : Finset String) :
    List String :=
  all_domains.filter (fun d => decide (d ∉ completed))

/-- Remaining scan budget of a domain under `process_domain`'s gate. -/
def scanBudget (max_retries : Nat) (st : PBSState) (d : String) : Nat :=
  if d ∈ st.completed then 0 else max_retries - retryCountPBS st d

/-- `completed ∩ failed = ∅` for the `ProductionBatchScanner` ledger. -/
def pbsDisjoint (st : PBSState) : Prop :=
  ∀ d ∈ st.completed, st.failed d = none

/-- The in-memory ledger of `BatchProcessor` (batch_processor.py lines
36-37): `completed_domains : set[str]` and
`failed_domains : dict[str, str]` (domain → error message). -/
structure BPState where
  completed : Finset String
  failed : String → Option String

/-- One scan outcome as consumed by `BatchProcessor.process_batch`. -/
structure BPResult where
  domain : String
  success : Bool
  error_message : Option String

/-- batch_processor.py `process_batch`, per-result handling (lines
156-167): the ledger is mutated first (success adds to `completed`,
failure sets `failed[domain] = error_message or "Unknown error"`; a
succeeding domain is never removed from `failed`), and only then is the
individual result file written (lines 163-165). -/
def bp_handle_result (st : BPState) (r : BPResult) : BPState × List ScanEvent :=
  ( if r.success then
      { st with completed := insert r.domain st.completed }
    else
      { st with
          failed := fun x =>
            if x = r.domain then some (r.error_message.getD "Unknown error")
            else st.failed x }
  , [ScanEvent.ledgerUpdate r.domain, ScanEvent.writeResult r.domain] )

/-- Some occurrence of event `a` is followed, strictly later in the
trace, by an occurrence of event `b`. -/
def eventBefore (a b : ScanEvent) : List ScanEvent → Prop
  | [] => False
  | e :: rest => (e = a ∧ b ∈ rest) ∨ eventBefore a b rest

/-! ## Checkpoint loading (claim C5)

The on-disk situation a loader can encounter: no file, an unparseable
file, or a well-formed checkpoint. -/

/-- State of the checkpoint file on disk when a scanner starts. -/
inductive CheckpointFile
  | missing
  | malformed
  | wellFormed (completed : List String) (failed : List (String × Nat))

/-- Outcome of a checkpoint load: proceed with a state, or abort the run
with an uncaught exception. -/
inductive LoadResult (σ : Type)
  | proceed (st : σ)
  | fatal

/-- Whether a load outcome aborts the run. -/
def LoadResult.isFatal {σ : Type} : LoadResult σ → Bool
  | .fatal => true
  | .proceed _ => false

/-- Retry-count lookup in a decoded checkpoint `failed` map. -/
def lookupFailed (l : List (String × Nat)) : String → Option Nat :=
  fun d => (l.find? (fun p => p.1 == d)).map Prod.snd

/-- production_batch_scanner.py `load_checkpoint` (lines 125-136): a
missing file leaves the (empty) in-memory state untouched; any exception
while reading/parsing is caught, logged as a warning, and the run
proceeds with the state untouched (`json.loads` raises before any
assignment, so nothing is loaded); a well-formed file replaces
`completed_domains` and `failed_domains`. -/
def pbs_load_checkpoint (st : PBSState) :
    CheckpointFile → LoadResult PBSState
  | .missing => .proceed st
  | .malformed => .proceed st
  | .wellFormed comp failed =>
      .proceed { completed := comp.toFinset, failed := lookupFailed failed }

/-- production_scanner.py `load_checkpoint` (lines 157-167): same shape,
with a bare `except: pass`, and only a `completed` set in its state. -/
structure PSState where
  completed : Finset String

/-- production_scanner.py `ProductionScanner.load_checkpoint`. -/
def ps_load_checkpoint (st : PSState) : CheckpointFile → LoadResult PSState
  | .missing => .proceed st
  | .malformed => .proceed st
  | .wellFormed comp _ => .proceed { completed := comp.toFinset }

/-- The `BatchProcessor` checkpoint format additionally stores the
`remaining` work list, and its `failed` map carries error strings
(batch_processor.py lines 59-75). -/
inductive BPCheckpointFile
  | missing
  | malformed
  | wellFormed (completed : List String) (failed : List (String × String))
      (remaining : List String)

/-- Error-message lookup in a decoded `BatchProcessor` `failed` map. -/
def lookupFailedMsg (l : List (String × String)) : String → Option String :=
  fun d => (l.find? (fun p => p.1 == d)).map Prod.snd

/-- batch_processor.py `load_checkpoint` (lines 88-106): a missing file
raises `FileNotFoundError` (lines 91-92) and a malformed file raises out
of `json.load` (line 95); neither exception is caught by the caller
(`process_batch`, line 122), so both abort the run.  A well-formed file
replaces the ledger and yields the remaining work list. -/
def bp_load_checkpoint :
    BPCheckpointFile → LoadResult (BPState × List String)
  | .missing => .fatal
  | .malformed => .fatal
  | .wellFormed comp failed remaining =>
      .proceed
        ( { completed := comp.toFinset, failed := lookupFailedMsg failed }
        , remaining )

/-! ## File-system model for checkpoint writes (claim C2)

A file system maps paths to contents (a list of characters; `none` means
the path does not exist).  Opening a file with mode `"w"` truncates it;
the JSON text then reaches the disk as a sequence of chunks (a process
killed mid-write leaves a proper prefix); `os.replace`/`Path.replace` is
an atomic rename. -/

/-- One file-system operation. -/
inductive FsOp
  | truncate (path : String)
  | writeChunk (path : String) (chunk : List Char)
  | rename (src dst : String)

/-- Effect of one operation on the file system. -/
def applyOp (fs : String → Option (List Char)) : FsOp → String → Option (List Char)
  | .truncate p, x => if x = p then some [] else fs x
  | .writeChunk p c, x => if x = p then some ((fs p).getD [] ++ c) else fs x
  | .rename s d, x => if x = d then fs s else if x = s then none else fs x

/-- Effect of a sequence of operations. -/
def applyOps (fs : String → Option (List Char)) (ops : List FsOp) :
    String → Option (List Char) :=
  ops.foldl applyOp fs

/-- Open `path` with mode `"w"` and write the chunks in order. -/
def writeFileOps (path : String) (chunks : List (List Char)) : List FsOp :=
  FsOp.truncate path :: chunks.map (FsOp.writeChunk path)

/-- production_batch_scanner.py `save_checkpoint` (lines 138-151): the
JSON text is written directly to the checkpoint path
(`aiofiles.open(self.checkpoint_file, 'w')` then `write(...)`); no
temporary file and no rename.  production_scanner.py `save_checkpoint`
(lines 168-177) does the same with a plain `open(..., "w")`. -/
def pbs_save_checkpoint_ops (checkpoint_path : String)
    (chunks : List (List Char)) : List FsOp :=
  writeFileOps checkpoint_path chunks

/-- batch_processor.py `save_checkpoint` (lines 80-84): the JSON text is
written to `temp_file = checkpoint_file.with_suffix(".tmp")` and the
temporary file is then renamed over the checkpoint file
(`temp_file.replace(self.checkpoint_file)`). -/
def bp_save_checkpoint_ops (checkpoint_path temp_path : String)
    (chunks : List (List Char)) : List FsOp :=
  writeFileOps temp_path chunks ++ [FsOp.rename temp_path checkpoint_path]

/-- Concatenation of the written chunks: the full serialized text. -/
def concatChunks : List (List Char) → List Char
  | [] => []
  | c :: rest => c ++ concatChunks rest

/-- What a reader sees at `path` if the writer is killed after the first
`k` operations. -/
def observableAt (fs : String → Option (List Char)) (ops : List FsOp)
    (k : Nat) (path : String) : Option (List Char) :=
  applyOps fs (ops.take k) path

/-- An operation writes only to path `p`. -/
def writesOnly (p : String) : FsOp → Prop
  | .truncate q => q = p
  | .writeChunk q _ => q = p
  | .rename _ _ => False

/-! ## Concrete sample values used by witnesses and counterexamples -/

/-- Fresh `ProductionBatchScanner` ledger (lines 55-56: empty set, empty
dict). -/
def pbsEmpty : PBSState :=
  { completed := ∅, failed := fun _ => none }

/-- A `ProductionBatchScanner` ledger in which `a.com` is already
completed. -/
def pbsCompletedA : PBSState :=
  { completed := {"a.com"}, failed := fun _ => none }

/-- Fresh `BatchProcessor` ledger. -/
def bpInitState : BPState :=
  { completed := ∅, failed := fun _ => none }

/-- A successful scan outcome for `a.com`. -/
def sampleSuccessResult : BPResult :=
  { domain := "a.com", success := true, error_message := none }

/-- The `BatchProcessor` ledger obtained by resuming from a well-formed
checkpoint that recorded `a.com` as failed with error `Timeout`. -/
def bpResumedLedger : BPState :=
  { completed := ([] : List String).toFinset
    failed := lookupFailedMsg [("a.com", "Timeout")] }

/-- A detector state whose only evidence is one matched meta tag. -/
def metaOnlyState : DetectorState :=
  { network_requests := []
    cookies_found := ∅
    script_tags := []
    global_variables := []
    dom_elements := []
    meta_tags := ["<meta name=\x22facebook-domain-verification\x22>"]
    pixel_ids := ∅ }

/-- A detector state with one matched network request and one extracted
pixel id. -/
def sampleDetectedState : DetectorState :=
  { network_requests := ["https://connect.facebook.net/en_US/fbevents.js"]
    cookies_found := ∅
    script_tags := []
    global_variables := []
    dom_elements := []
    meta_tags := []
    pixel_ids := {"123456"} }

/-- The detection `build_detection` produces from `sampleDetectedState`
with the `popSorted` choice function. -/
def sampleDetection : PixelDetection :=
  { pixel_type := "meta_pixel"
    evidence :=
      { network_requests := sampleDetectedState.network_requests
        script_tags := []
        cookies_set := ∅
        global_variables := []
        dom_elements := []
        meta_tags := [] }
    risk_level := "high"
    hipaa_concern := true
    pixel_id :=
      if sampleDetectedState.pixel_ids = ∅ then none
      else popSorted sampleDetectedState.pixel_ids }

/-- An initial file system in which the checkpoint file holds an earlier
complete checkpoint. -/
def cexInitFs : String → Option (List Char) :=
  fun p => if p = "checkpoint.json" then some ['o', 'l', 'd'] else none

/-! ## Helper lemmas -/

theorem popSorted_popLike : popLike popSorted := by
  intro s hs
  rcases Finset.nonempty_of_ne_empty hs with ⟨y, hy⟩
  have hlen : (s.sort (· ≤ ·)).length = s.card := Finset.length_sort _
  have hcard : 0 < s.card := Finset.card_pos.mpr ⟨y, hy⟩
  cases hsort : s.sort (· ≤ ·) with
  | nil =>
      rw [hsort] at hlen
      simp at hlen
      omega
  | cons a l =>
      refine ⟨a, ?_, ?_⟩
      · have ha : a ∈ s.sort (· ≤ ·) := by
          rw [hsort]; exact List.mem_cons_self a l
        exact (Finset.mem_sort _).mp ha
      · show (s.sort (· ≤ ·)).head? = some a
        rw [hsort]
        rfl

theorem is_detected_eq_false_iff (st : DetectorState) :
    is_detected st = false ↔
      st.network_requests = [] ∧ st.script_tags = [] ∧
        st.cookies_found = ∅ ∧ st.global_variables = [] ∧
        st.dom_elements = [] := by
  simp only [is_detected, Bool.or_eq_false_iff, Bool.not_eq_false',
    List.isEmpty_iff, bne_eq_false_iff_eq, Finset.card_eq_zero]
  tauto

theorem countScans_append (d : String) (a b : List ScanEvent) :
    countScans d (a ++ b) = countScans d a + countScans d b :=
  List.count_append _ _ _

theorem countScans_le_budget (m : Nat) (d : String) :
    ∀ (steps : List (String × Bool)) (st : PBSState),
      countScans d (runSteps m st steps).2 ≤ scanBudget m st d := by
  intro steps
  induction steps with
  | nil =>
      intro st
      simp [runSteps, countScans]
  | cons p rest ih =>
      intro st
      obtain ⟨e, success⟩ := p
      by_cases h1 : e ∈ st.completed
      · have hskip : process_domain m st e success = (st, []) := by
          simp [process_domain, h1]
        simp only [runSteps, hskip]
        simpa [countScans] using ih st
      · by_cases h2 : m ≤ retryCountPBS st e
        · have hskip : process_domain m st e success = (st, []) := by
            simp [process_domain, h1, h2]
          simp only [runSteps, hskip]
          simpa [countScans] using ih st
        · have hc : retryCountPBS st e < m := Nat.lt_of_not_le h2
          cases success with
          | true =>
              have hpd : process_domain m st e true =
                  ({ completed := insert e st.completed
                     failed := fun x => if x = e then none else st.failed x },
                   [ScanEvent.scan e, ScanEvent.writeResult e,
                    ScanEvent.ledgerUpdate e, ScanEvent.saveCheckpoint,
                    ScanEvent.updateProgress]) := by
                simp [process_domain, h1, h2]
              simp only [runSteps, hpd]
              rw [countScans_append]
              by_cases he : e = d
              · subst he
                have hih := ih { completed := insert e st.completed
                                 failed := fun x => if x = e then none
                                                    else st.failed x }
                have hbS : scanBudget m
                    { completed := insert e st.completed
                      failed := fun x => if x = e then none else st.failed x }
                    e = 0 := by
                  simp [scanBudget]
                have h0 : countScans e (runSteps m
                    { completed := insert e st.completed
                      failed := fun x => if x = e then none else st.failed x }
                    rest).2 = 0 := Nat.le_zero.mp (hbS ▸ hih)
                have hcount : countScans e
                    [ScanEvent.scan e, ScanEvent.writeResult e,
                     ScanEvent.ledgerUpdate e, ScanEvent.saveCheckpoint,
                     ScanEvent.updateProgress] = 1 := by
                  simp [countScans]
                rw [hcount, h0, scanBudget, if_neg h1]
                omega
              · have he' : d ≠ e := fun h => he h.symm
                have hih := ih { completed := insert e st.completed
                                 failed := fun x => if x = e then none
                                                    else st.failed x }
                have hbS : scanBudget m
                    { completed := insert e st.completed
                      failed := fun x => if x = e then none else st.failed x }
                    d = scanBudget m st d := by
                  simp [scanBudget, retryCountPBS, Finset.mem_insert, he']
                have hcount : countScans d
                    [ScanEvent.scan e, ScanEvent.writeResult e,
                     ScanEvent.ledgerUpdate e, ScanEvent.saveCheckpoint,
                     ScanEvent.updateProgress] = 0 := by
                  simp [countScans, List.count_cons, beq_iff_eq, he, he']
                rw [hcount]
                simpa using hih.trans (le_of_eq hbS)
          | false =>
              have hpd : process_domain m st e false =
                  ({ completed := st.completed
                     failed := fun x => if x = e then some (retryCountPBS st e + 1)
                                        else st.failed x },
                   [ScanEvent.scan e, ScanEvent.writeResult e,
                    ScanEvent.ledgerUpdate e, ScanEvent.saveCheckpoint,
                    ScanEvent.updateProgress]) := by
                simp [process_domain, h1, h2]
              simp only [runSteps, hpd]
              rw [countScans_append]
              by_cases he : e = d
              · subst he
                have hih := ih { completed := st.completed
                                 failed := fun x =>
                                   if x = e then some (retryCountPBS st e + 1)
                                   else st.failed x }
                have hbS : scanBudget m
                    { completed := st.completed
                      failed := fun x =>
                        if x = e then some (retryCountPBS st e + 1)
                        else st.failed x }
                    e = m - (retryCountPBS st e + 1) := by
                  simp [scanBudget, retryCountPBS, h1]
                have hcount : countScans e
                    [ScanEvent.scan e, ScanEvent.writeResult e,
                     ScanEvent.ledgerUpdate e, ScanEvent.saveCheckpoint,
                     ScanEvent.updateProgress] = 1 := by
                  simp [countScans]
                have hle : countScans e (runSteps m
                    { completed := st.completed
                      failed := fun x =>
                        if x = e then some (retryCountPBS st e + 1)
                        else st.failed x }
                    rest).2 ≤ m - (retryCountPBS st e + 1) :=
                  hih.trans (le_of_eq hbS)
                rw [hcount, scanBudget, if_neg h1]
                omega
              · have he' : d ≠ e := fun h => he h.symm
                have hih := ih { completed := st.completed
                                 failed := fun x =>
                                   if x = e then some (retryCountPBS st e + 1)
                                   else st.failed x }
                have hbS : scanBudget m
                    { completed := st.completed
                      failed := fun x =>
                        if x = e then some (retryCountPBS st e + 1)
                        else st.failed x }
                    d = scanBudget m st d := by
                  simp [scanBudget, retryCountPBS, he']
                have hcount : countScans d
                    [ScanEvent.scan e, ScanEvent.writeResult e,
                     ScanEvent.ledgerUpdate e, ScanEvent.saveCheckpoint,
                     ScanEvent.updateProgress] = 0 := by
                  simp [countScans, List.count_cons, beq_iff_eq, he, he']
                rw [hcount]
                simpa using hih.trans (le_of_eq hbS)

theorem pbsDisjoint_process (m : Nat) (st : PBSState) (d : String)
    (success : Bool) (h : pbsDisjoint st) :
    pbsDisjoint (process_domain m st d success).1 := by
  by_cases h1 : d ∈ st.completed
  · simpa [process_domain, h1] using h
  · by_cases h2 : m ≤ retryCountPBS st d
    · simpa [process_domain, h1, h2] using h
    · cases success with
      | true =>
          intro e he
          simp only [process_domain, h1, h2, if_neg, if_false] at he ⊢
          simp only [if_true, Finset.mem_insert] at he ⊢
          rcases he with rfl | he
          · simp
          · have := h e he
            by_cases hed : e = d
            · subst hed; simp
            · simp [hed, this]
      | false =>
          intro e he
          simp only [process_domain, h1, h2, if_neg, if_false] at he ⊢
          have hed : e ≠ d := by
            rintro rfl
            exact h1 he
          have := h e he
          simp only [Bool.false_eq_true, if_false] at he ⊢
          simp [hed, this]

theorem applyOps_writesOnly_ne (p q : String) (hpq : q ≠ p) :
    ∀ (ops : List FsOp) (fs : String → Option (List Char)),
      (∀ op ∈ ops, writesOnly p op) → applyOps fs ops q = fs q := by
  intro ops
  induction ops with
  | nil =>
      intro fs _
      rfl
  | cons op rest ih =>
      intro fs hops
      have hop := hops op (List.mem_cons_self _ _)
      have hrest : ∀ o ∈ rest, writesOnly p o :=
        fun o ho => hops o (List.mem_cons_of_mem _ ho)
      show applyOps (applyOp fs op) rest q = fs q
      rw [ih _ hrest]
      cases op with
      | truncate r =>
          have hr : r = p := hop
          subst hr
          simp [applyOp, hpq]
      | writeChunk r c =>
          have hr : r = p := hop
          subst hr
          simp [applyOp, hpq]
      | rename s d =>
          exact absurd hop (by simp [writesOnly])

theorem applyOps_map_writeChunk (p : String) :
    ∀ (chunks : List (List Char)) (fs : String → Option (List Char))
      (acc : List Char), fs p = some acc →
      applyOps fs (chunks.map (FsOp.writeChunk p)) p =
        some (acc ++ concatChunks chunks) := by
  intro chunks
  induction chunks with
  | nil =>
      intro fs acc hacc
      simpa [applyOps, concatChunks] using hacc
  | cons c rest ih =>
      intro fs acc hacc
      have h1 : applyOp fs (FsOp.writeChunk p c) p = some (acc ++ c) := by
        simp [applyOp, hacc]
      have h2 := ih (applyOp fs (FsOp.writeChunk p c)) (acc ++ c) h1
      show applyOps (applyOp fs (FsOp.writeChunk p c))
        (rest.map (FsOp.writeChunk p)) p = _
      rw [h2, concatChunks, List.append_assoc]

theorem writeFileOps_content (p : String) (chunks : List (List Char))
    (fs : String → Option (List Char)) :
    applyOps fs (writeFileOps p chunks) p = some (concatChunks chunks) := by
  have h1 : applyOp fs (FsOp.truncate p) p = some [] := by
    simp [applyOp]
  have h2 := applyOps_map_writeChunk p chunks (applyOp fs (FsOp.truncate p)) [] h1
  show applyOps (applyOp fs (FsOp.truncate p)) (chunks.map (FsOp.writeChunk p)) p = _
  simpa using h2

theorem writeFileOps_writesOnly (p : String) (chunks : List (List Char)) :
    ∀ op ∈ writeFileOps p chunks, writesOnly p op := by
  intro op hop
  simp only [writeFileOps, List.mem_cons, List.mem_map] at hop
  rcases hop with rfl | ⟨c, _, rfl⟩ <;> simp [writesOnly]

/-! ## Claim theorems -/

/-- Claim C8: for every detector after one scan, `build_detection`
returns `None` exactly when all five evidence categories (matched
network requests, matched script patterns, matched cookie names, matched
global variables, matched DOM elements) are empty, and returns exactly
one `Detection` (a `some`) whenever at least one piece of evidence in
any of those five categories was accumulated. -/
theorem claim8_evidence_gating (popFn : Finset String → Option String)
    (ptype risk : String) (hipaa : Bool) (st : DetectorState) :
    (build_detection popFn ptype risk hipaa st = none ↔
      st.network_requests = [] ∧ st.script_tags = [] ∧
        st.cookies_found = ∅ ∧ st.global_variables = [] ∧
        st.dom_elements = []) ∧
    ((∃ det, build_detection popFn ptype risk hipaa st = some det) ↔
      ¬(st.network_requests = [] ∧ st.script_tags = [] ∧
          st.cookies_found = ∅ ∧ st.global_variables = [] ∧
          st.dom_elements = [])) := by
  have hnone : build_detection popFn ptype risk hipaa st = none ↔
      is_detected st = false := by
    unfold build_detection
    by_cases h : is_detected st <;> simp [h]
  constructor
  · rw [hnone, is_detected_eq_false_iff]
  · rw [← is_detected_eq_false_iff, ← hnone]
    unfold build_detection
    by_cases h : is_detected st <;> simp [h]

/-- Claim C10: a detector whose only accumulated evidence is matched
meta tags emits no `Detection` (`is_detected` never consults
`meta_tags`), while the `meta_tags` accumulator is included verbatim in
the evidence of any `Detection` that is emitted. -/
theorem claim10_meta_tags_not_gating (popFn : Finset String → Option String)
    (ptype risk : String) (hipaa : Bool) (st : DetectorState)
    (h1 : st.network_requests = []) (h2 : st.script_tags = [])
    (h3 : st.cookies_found = ∅) (h4 : st.global_variables = [])
    (h5 : st.dom_elements = []) (_h6 : st.meta_tags ≠ []) :
    build_detection popFn ptype risk hipaa st = none ∧
    ∀ st2 det, build_detection popFn ptype risk hipaa st2 = some det →
      det.evidence.meta_tags = st2.meta_tags := by
  constructor
  · unfold build_detection
    have : is_detected st = false := by
      rw [is_detected_eq_false_iff]
      exact ⟨h1, h2, h3, h4, h5⟩
    simp [this]
  · intro st2 det hdet
    unfold build_detection at hdet
    by_cases h : is_detected st2
    · simp only [h, if_true, Option.some.injEq] at hdet
      rw [← hdet]
    · simp [h] at hdet

/-- Witness for claim C10 at a concrete detector state whose only
evidence is one matched meta tag. -/
theorem claim10_witness :
    build_detection popSorted "meta_pixel" "high" true metaOnlyState = none :=
  (claim10_meta_tags_not_gating popSorted "meta_pixel" "high" true
    metaOnlyState rfl rfl rfl rfl rfl (by simp [metaOnlyState])).1

/-- Counterexample to claim C9: `build_detection` computes `pixel_id` as
`self.pixel_ids.pop()`, where `pixel_ids` is a Python `set`.  The set
accumulated after discovering candidate `1111` and then `2222` is equal
to the set accumulated after discovering `2222` and then `1111`, so no
behaviour of `pop` — which consumes only that set — can return the most
recently discovered candidate in both runs: last-write-wins is not
realizable. -/
theorem claim9_counterexample :
    pixelIdsAfter ["1111", "2222"] = pixelIdsAfter ["2222", "1111"] ∧
    ¬ ∃ f : Finset String → Option String,
        f (pixelIdsAfter ["1111", "2222"]) = some "2222" ∧
        f (pixelIdsAfter ["2222", "1111"]) = some "1111" := by
  have heq : pixelIdsAfter ["1111", "2222"] = pixelIdsAfter ["2222", "1111"] := by
    simp only [pixelIdsAfter, List.foldl_cons, List.foldl_nil]
    exact Finset.pair_comm "2222" "1111"
  refine ⟨heq, ?_⟩
  rintro ⟨f, hf1, hf2⟩
  rw [heq, hf2] at hf1
  simp at hf1

/-- Claim C9 as amended: the `pixel_id` placed in the built `Detection`
is some element of the unordered set of accumulated candidates (whatever
element `set.pop` happens to remove), not necessarily the most recently
discovered one. -/
theorem claim9_amended (popFn : Finset String → Option String)
    (hpop : popLike popFn) (ptype risk : String) (hipaa : Bool)
    (st : DetectorState) (det : PixelDetection)
    (hdet : build_detection popFn ptype risk hipaa st = some det)
    (hne : st.pixel_ids ≠ ∅) :
    ∃ x ∈ st.pixel_ids, det.pixel_id = some x := by
  unfold build_detection at hdet
  by_cases h : is_detected st
  · simp only [h, if_true, Option.some.injEq] at hdet
    obtain ⟨x, hx, hpx⟩ := hpop st.pixel_ids hne
    refine ⟨x, hx, ?_⟩
    rw [← hdet]
    simp [hne, hpx]
  · simp [h] at hdet

/-- Witness for claim C9 at a concrete detector state with one matched
network request and one candidate pixel id. -/
theorem claim9_witness :
    ∃ x ∈ sampleDetectedState.pixel_ids,
      sampleDetection.pixel_id = some x :=
  claim9_amended popSorted popSorted_popLike "meta_pixel" "high" true
    sampleDetectedState sampleDetection
    (by simp [build_detection, is_detected, sampleDetectedState, sampleDetection])
    (by simp [sampleDetectedState])

/-- Claim C1: after loading the checkpoint, the domains dispatched for
scanning are exactly the input list minus the checkpointed completed set
(`run`, line 374); `process_domain` scans `d` exactly when `d` is not
completed and its carried-forward retry count is below `max_retries`
(lines 323-331); across any sequence of `process_domain` steps — hence
across restarts, since the checkpoint round-trips the ledger — `d` is
scanned at most `max_retries − retryCount` more times, never exceeding
its global retry budget, and a completed domain is never re-scanned. -/
theorem claim1_resume_and_retry_budget (m : Nat) (all_domains : List String)
    (st : PBSState) (d : String) (success : Bool)
    (steps : List (String × Bool)) :
    (d ∈ domains_to_scan all_domains st.completed ↔
       d ∈ all_domains ∧ d ∉ st.completed) ∧
    (ScanEvent.scan d ∈ (process_domain m st d success).2 ↔
       d ∉ st.completed ∧ retryCountPBS st d < m) ∧
    countScans d (runSteps m st steps).2 ≤ scanBudget m st d ∧
    countScans d (runSteps m st steps).2 + retryCountPBS st d ≤
      max m (retryCountPBS st d) ∧
    (d ∈ st.completed → countScans d (runSteps m st steps).2 = 0) := by
  have hbudget := countScans_le_budget m d steps st
  refine ⟨?_, ?_, hbudget, ?_, ?_⟩
  · simp [domains_to_scan, List.mem_filter]
  · by_cases h1 : d ∈ st.completed
    · simp [process_domain, h1]
    · by_cases h2 : m ≤ retryCountPBS st d
      · simp [process_domain, h1, h2, Nat.not_lt.mpr h2]
      · simp [process_domain, h1, h2, Nat.lt_of_not_le h2]
  · rw [scanBudget] at hbudget
    by_cases h1 : d ∈ st.completed
    · rw [if_pos h1] at hbudget
      omega
    · rw [if_neg h1] at hbudget
      omega
  · intro h1
    rw [scanBudget, if_pos h1] at hbudget
    omega

/-- Witness for claim C1: with `a.com` already checkpointed as
completed, a further step for `a.com` performs no scan. -/
theorem claim1_witness :
    countScans "a.com" (runSteps 2 pbsCompletedA [("a.com", false)]).2 = 0 :=
  (claim1_resume_and_retry_budget 2 ["a.com"] pbsCompletedA "a.com" false
    [("a.com", false)]).2.2.2.2 (by simp [pbsCompletedA])

/-- Counterexample to claim C3: in `BatchProcessor.process_batch` the
in-memory ledger is mutated (lines 157-160) before the per-domain result
file is written (lines 163-165), so the write does not precede the
ledger update. -/
theorem claim3_counterexample :
    (bp_handle_result bpInitState sampleSuccessResult).2 =
      [ScanEvent.ledgerUpdate "a.com", ScanEvent.writeResult "a.com"] ∧
    ¬ eventBefore (ScanEvent.writeResult "a.com")
        (ScanEvent.ledgerUpdate "a.com")
        (bp_handle_result bpInitState sampleSuccessResult).2 := by
  refine ⟨rfl, ?_⟩
  show ¬ eventBefore _ _ [ScanEvent.ledgerUpdate "a.com",
    ScanEvent.writeResult "a.com"]
  simp [eventBefore]

/-- Claim C3 as amended: `ProductionBatchScanner.process_domain` writes
the scan outcome to its per-domain result file before updating the
in-memory ledger (whenever the ledger is updated at all), whereas
`BatchProcessor.process_batch` updates the ledger first and writes the
result file second. -/
theorem claim3_amended (m : Nat) (st : PBSState) (d : String)
    (success : Bool) (st2 : BPState) (r : BPResult)
    (h : ScanEvent.ledgerUpdate d ∈ (process_domain m st d success).2) :
    eventBefore (ScanEvent.writeResult d) (ScanEvent.ledgerUpdate d)
      (process_domain m st d success).2 ∧
    (bp_handle_result st2 r).2 =
      [ScanEvent.ledgerUpdate r.domain, ScanEvent.writeResult r.domain] := by
  refine ⟨?_, rfl⟩
  by_cases h1 : d ∈ st.completed
  · simp [process_domain, h1] at h
  · by_cases h2 : m ≤ retryCountPBS st d
    · simp [process_domain, h1, h2] at h
    · have htr : (process_domain m st d success).2 =
          [ScanEvent.scan d, ScanEvent.writeResult d, ScanEvent.ledgerUpdate d,
           ScanEvent.saveCheckpoint, ScanEvent.updateProgress] := by
        simp [process_domain, h1, h2]
      rw [htr]
      exact Or.inr (Or.inl ⟨rfl, by simp⟩)

/-- Witness for claim C3 at a fresh ledger and a failing scan of
`a.com`. -/
theorem claim3_witness :
    eventBefore (ScanEvent.writeResult "a.com")
      (ScanEvent.ledgerUpdate "a.com")
      (process_domain 2 pbsEmpty "a.com" false).2 :=
  (claim3_amended 2 pbsEmpty "a.com" false bpInitState sampleSuccessResult
    (by simp [process_domain, pbsEmpty, retryCountPBS])).1

/-- Counterexample to claim C4: `BatchProcessor` never removes a
succeeding domain from its `failed` map.  Resuming from a well-formed
checkpoint that records `a.com` as failed and then scanning `a.com`
successfully leaves `a.com` in both `completed` and `failed`, and the
next `save_checkpoint` (lines 57-86, reached unconditionally at line
201) serializes that overlapping ledger. -/
theorem claim4_counterexample :
    bp_load_checkpoint
        (BPCheckpointFile.wellFormed [] [("a.com", "Timeout")] ["a.com"]) =
      LoadResult.proceed (bpResumedLedger, ["a.com"]) ∧
    "a.com" ∈ (bp_handle_result bpResumedLedger sampleSuccessResult).1.completed ∧
    (bp_handle_result bpResumedLedger sampleSuccessResult).1.failed "a.com" =
      some "Timeout" := by
  refine ⟨rfl, ?_, ?_⟩
  · simp [bp_handle_result, sampleSuccessResult]
  · simp [bp_handle_result, sampleSuccessResult, bpResumedLedger,
      lookupFailedMsg]

/-- Claim C4 as amended: the `ProductionBatchScanner` ledger does
satisfy `completed ∩ failed = ∅` at every checkpoint write — a domain
whose scan succeeds is added to `completed` and removed from `failed` in
the same step, before `save_checkpoint` runs — and the invariant is
preserved by every sequence of `process_domain` steps; `BatchProcessor`,
by contrast, does not remove a succeeding domain from its `failed` map
(see the counterexample). -/
theorem claim4_amended (m : Nat) (st : PBSState)
    (steps : List (String × Bool)) (d : String)
    (h : pbsDisjoint st) :
    pbsDisjoint (runSteps m st steps).1 ∧
    (d ∉ st.completed → retryCountPBS st d < m →
      (process_domain m st d true).1.failed d = none) := by
  constructor
  · induction steps generalizing st with
    | nil => simpa [runSteps]
    | cons p rest ih =>
        obtain ⟨e, success⟩ := p
        simp only [runSteps]
        exact ih _ (pbsDisjoint_process m st e success h)
  · intro h1 h2
    simp [process_domain, h1, Nat.not_le.mpr h2]

/-- Witness for claim C4: starting from the fresh ledger, a failing then
a succeeding scan of `a.com` (with a `b.com` failure interleaved) leaves
a ledger whose completed and failed sets are disjoint. -/
theorem claim4_witness :
    pbsDisjoint (runSteps 2 pbsEmpty
      [("a.com", false), ("b.com", false), ("a.com", true)]).1 ∧
    (process_domain 2 pbsEmpty "c.com" true).1.failed "c.com" = none :=
  ⟨(claim4_amended 2 pbsEmpty
      [("a.com", false), ("b.com", false), ("a.com", true)] "c.com"
      (fun d hd => absurd hd (by simp [pbsEmpty]))).1,
   (claim4_amended 2 pbsEmpty
      [("a.com", false), ("b.com", false), ("a.com", true)] "c.com"
      (fun d hd => absurd hd (by simp [pbsEmpty]))).2
     (by simp [pbsEmpty]) (by simp [pbsEmpty, retryCountPBS])⟩

/-- Counterexample to claim C5: a malformed checkpoint file is not
fatal to `ProductionBatchScanner.load_checkpoint` — the exception is
caught and logged as a warning (lines 135-136) and the run proceeds with
the untouched (empty) in-memory ledger, silently discarding whatever
progress the corrupt file recorded. -/
theorem claim5_counterexample :
    (pbs_load_checkpoint pbsEmpty CheckpointFile.malformed).isFatal = false ∧
    pbs_load_checkpoint pbsEmpty CheckpointFile.malformed =
      LoadResult.proceed pbsEmpty :=
  ⟨rfl, rfl⟩

/-- Claim C5 as amended: a missing checkpoint file gives a fresh start
in `ProductionBatchScanner` and `ProductionScanner`, and a well-formed
file restores the recorded ledger; but a malformed file is not fatal to
either — both catch the parse error and proceed with their prior
(empty) state — while `BatchProcessor.load_checkpoint` aborts the run on
a malformed file and also on a missing one. -/
theorem claim5_amended (st : PBSState) (stp : PSState)
    (comp : List String) (failed : List (String × Nat)) :
    pbs_load_checkpoint st CheckpointFile.missing = LoadResult.proceed st ∧
    pbs_load_checkpoint st CheckpointFile.malformed = LoadResult.proceed st ∧
    ps_load_checkpoint stp CheckpointFile.malformed = LoadResult.proceed stp ∧
    bp_load_checkpoint BPCheckpointFile.missing = LoadResult.fatal ∧
    bp_load_checkpoint BPCheckpointFile.malformed = LoadResult.fatal ∧
    pbs_load_checkpoint st (CheckpointFile.wellFormed comp failed) =
      LoadResult.proceed
        { completed := comp.toFinset, failed := lookupFailed failed } :=
  ⟨rfl, rfl, rfl, rfl, rfl, rfl⟩

/-- Counterexample to claim C2: `ProductionBatchScanner.save_checkpoint`
opens the checkpoint path itself with mode `w` and writes the JSON text
to it directly (lines 147-149) — no temporary path, no rename.  A
process killed after the first chunk leaves the checkpoint file holding
a proper prefix of the new text, which is neither the old complete
checkpoint nor the new one. -/
theorem claim2_counterexample :
    observableAt cexInitFs
        (pbs_save_checkpoint_ops "checkpoint.json" [['n', 'e'], ['w', 's']])
        2 "checkpoint.json" = some ['n', 'e'] ∧
    cexInitFs "checkpoint.json" = some ['o', 'l', 'd'] ∧
    concatChunks [['n', 'e'], ['w', 's']] = ['n', 'e', 'w', 's'] ∧
    (['n', 'e'] : List Char) ≠ ['o', 'l', 'd'] ∧
    (['n', 'e'] : List Char) ≠ ['n', 'e', 'w', 's'] := by
  refine ⟨?_, rfl, rfl, by decide, by decide⟩
  simp [observableAt, pbs_save_checkpoint_ops, writeFileOps, applyOps,
    applyOp, cexInitFs]

/-- Claim C2 as amended: `BatchProcessor.save_checkpoint` is atomic —
it writes the full JSON to a temporary path and renames it over the
checkpoint file, so at every crash point a reader of the checkpoint path
sees either the previous content or the complete new content; but
`ProductionBatchScanner.save_checkpoint` (and
`ProductionScanner.save_checkpoint`) write directly to the checkpoint
path, whose previous content is already destroyed after the open
(truncate) while the new content is not yet fully written. -/
theorem claim2_amended (fs : String → Option (List Char)) (cp tmp : String)
    (chunks : List (List Char)) (k : Nat) (h : tmp ≠ cp) :
    (observableAt fs (bp_save_checkpoint_ops cp tmp chunks) k cp = fs cp ∨
     observableAt fs (bp_save_checkpoint_ops cp tmp chunks) k cp =
       some (concatChunks chunks)) ∧
    observableAt fs (pbs_save_checkpoint_ops cp chunks) 1 cp = some [] := by
  constructor
  · by_cases hk : k ≤ (writeFileOps tmp chunks).length
    · left
      rw [observableAt, bp_save_checkpoint_ops,
        List.take_append_of_le_length hk]
      exact applyOps_writesOnly_ne tmp cp (Ne.symm h) _ fs
        (fun op hop =>
          writeFileOps_writesOnly tmp chunks op (List.take_subset _ _ hop))
    · right
      have hlen : (bp_save_checkpoint_ops cp tmp chunks).length ≤ k := by
        simp only [bp_save_checkpoint_ops, List.length_append,
          List.length_cons, List.length_nil]
        omega
      rw [observableAt, List.take_of_length_le hlen,
        bp_save_checkpoint_ops, applyOps, List.foldl_append]
      show applyOps (applyOps fs (writeFileOps tmp chunks))
        [FsOp.rename tmp cp] cp = _
      have hcontent := writeFileOps_content tmp chunks fs
      simp only [applyOps] at hcontent
      simp [applyOps, applyOp, hcontent]
  · simp [observableAt, pbs_save_checkpoint_ops, writeFileOps, applyOps,
      applyOp]

/-- Witness for claim C2 at the concrete checkpoint path, temp path and
two-chunk JSON write. -/
theorem claim2_witness :
    observableAt cexInitFs
        (bp_save_checkpoint_ops "checkpoint.json" "checkpoint.tmp"
          [['n', 'e'], ['w', 's']])
        2 "checkpoint.json" = cexInitFs "checkpoint.json" ∨
    observableAt cexInitFs
        (bp_save_checkpoint_ops "checkpoint.json" "checkpoint.tmp"
          [['n', 'e'], ['w', 's']])
        2 "checkpoint.json" =
      some (concatChunks [['n', 'e'], ['w', 's']]) :=
  (claim2_amended cexInitFs "checkpoint.json" "checkpoint.tmp"
    [['n', 'e'], ['w', 's']] 2 (by decide)).1

/-- Counterexample to claim C6: with jitter enabled the delay is
multiplied by `0.5 + random.random()` (retry.py line 73), a factor in
`[0.5, 1.5)`, not `[0.5, 1.0]`: at `random.random() = 0.9` the jittered
delay exceeds the un-jittered delay, impossible under the claimed
factor range. -/
theorem claim6_counterexample :
    (0 : ℚ) ≤ 9 / 10 ∧ (9 / 10 : ℚ) < 1 ∧
    jittered_delay 1 60 2 0 (9 / 10) = 7 / 5 ∧
    ¬ jittered_delay 1 60 2 0 (9 / 10) ≤ backoff_delay 1 60 2 0 := by
  norm_num [jittered_delay, backoff_delay]

/-- Claim C6 as amended: the delay before retry `k` (0-indexed) is
`min(initial_delay · backoff_base^k, max_delay)`; with jitter enabled it
is multiplied by `0.5 + r` with `r` uniform in `[0, 1)`, so the jittered
delay lies in `[0.5·delay, 1.5·delay)`; with jitter disabled the delay
equals the min-formula exactly, and for `backoff_base ≥ 1` it is
monotone in `k` up to `max_delay`. -/
theorem claim6_amended (i M b r : ℚ) (k : ℕ) (hi : 0 < i) (hM : 0 < M)
    (hb : 1 ≤ b) (hr0 : 0 ≤ r) (hr1 : r < 1) :
    backoff_delay i M b k = min (i * b ^ k) M ∧
    jittered_delay i M b k r = backoff_delay i M b k * (1 / 2 + r) ∧
    1 / 2 * backoff_delay i M b k ≤ jittered_delay i M b k r ∧
    jittered_delay i M b k r < 3 / 2 * backoff_delay i M b k ∧
    backoff_delay i M b k ≤ backoff_delay i M b (k + 1) := by
  have hbpos : (0 : ℚ) < b := lt_of_lt_of_le one_pos hb
  have hpow : (0 : ℚ) < b ^ k := pow_pos hbpos k
  have hibk : 0 < i * b ^ k := mul_pos hi hpow
  have hdelay : 0 < backoff_delay i M b k := lt_min hibk hM
  refine ⟨rfl, rfl, ?_, ?_, ?_⟩
  · unfold jittered_delay
    nlinarith [hdelay, hr0]
  · unfold jittered_delay
    nlinarith [hdelay, hr1]
  · unfold backoff_delay
    have hbk : b ^ k ≤ b ^ (k + 1) := by
      have h1 : b ^ k * 1 ≤ b ^ k * b := by nlinarith
      calc b ^ k = b ^ k * 1 := (mul_one _).symm
        _ ≤ b ^ k * b := h1
        _ = b ^ (k + 1) := (pow_succ b k).symm
    exact min_le_min (mul_le_mul_of_nonneg_left hbk hi.le) le_rfl

/-- Witness for claim C6 with the source defaults `initial_delay = 1`,
`max_delay = 60`, `exponential_base = 2` at attempt 1 and
`random.random() = 1/4`. -/
theorem claim6_witness :
    1 / 2 * backoff_delay 1 60 2 1 ≤ jittered_delay 1 60 2 1 (1 / 4) ∧
    backoff_delay 1 60 2 1 ≤ backoff_delay 1 60 2 2 :=
  ⟨(claim6_amended 1 60 2 (1 / 4) 1 (by norm_num) (by norm_num)
      (by norm_num) (by norm_num) (by norm_num)).2.2.1,
   (claim6_amended 1 60 2 (1 / 4) 1 (by norm_num) (by norm_num)
      (by norm_num) (by norm_num) (by norm_num)).2.2.2.2⟩

/-- Counterexample to claim C7: for the already-`www.`-prefixed input
`www.example.com`, `normalize_domain` keeps the supplied `www.` form
first (`https://www.example.com`, then `https://example.com`; lines
106-113), it does not flip to try the bare form first as claimed. -/
theorem claim7_counterexample :
    normalize_domain "www.example.com" =
      ["https://www.example.com", "https://example.com",
       "http://www.example.com", "http://example.com"] ∧
    normalize_domain "www.example.com" ≠
      ["https://example.com", "https://www.example.com",
       "http://example.com", "http://www.example.com"] := by
  constructor
  · decide
  · decide

/-- Claim C7 as amended: for a cleaned input that is not
`www.`-prefixed, the variant order is `https://domain`,
`https://www.domain`, `http://domain`, `http://www.domain` as claimed;
for a `www.`-prefixed input, the supplied `www.` form is tried first and
the bare form second within each scheme (`https://www.d`, `https://d`,
`http://www.d`, `http://d`), not bare-first. -/
theorem claim7_amended (raw : String) :
    (startsWithWWW (cleanedDomain raw) = false →
      normalize_domain raw =
        [ String.mk ("https://".toList ++ cleanedDomain raw)
        , String.mk ("https://www.".toList ++ cleanedDomain raw)
        , String.mk ("http://".toList ++ cleanedDomain raw)
        , String.mk ("http://www.".toList ++ cleanedDomain raw) ]) ∧
    (startsWithWWW (cleanedDomain raw) = true →
      normalize_domain raw =
        [ String.mk ("https://".toList ++ cleanedDomain raw)
        , String.mk ("https://".toList ++ (cleanedDomain raw).drop 4)
        , String.mk ("http://".toList ++ cleanedDomain raw)
        , String.mk ("http://".toList ++ (cleanedDomain raw).drop 4) ]) := by
  constructor <;> intro h <;> simp [normalize_domain, h]

/-- Witness for claim C7 at the `www.`-prefixed input
`www.example.com`. -/
theorem claim7_witness :
    normalize_domain "www.example.com" =
      [ String.mk ("https://".toList ++ cleanedDomain "www.example.com")
      , String.mk ("https://".toList ++
          (cleanedDomain "www.example.com").drop 4)
      , String.mk ("http://".toList ++ cleanedDomain "www.example.com")
      , String.mk ("http://".toList ++
          (cleanedDomain "www.example.com").drop 4) ] :=
  (claim7_amended "www.example.com").2 (by decide)

end PixelDetector
